import Mathlib

/-!
Verification development for the DualValidator form component
(src/double_validation.js).

The component keeps React state for two fields (email, invite code) plus
overall submission state, validates both fields against remote endpoints
via Promise.all, and updates state from the outcomes.  We embed it as a
pure state machine:

* `JsValue` models untyped JSON payloads (needed because the email
  validator tests `data.allowed === true` while the invite validator
  tests truthiness of `data.valid`).
* `FormState` mirrors the nine useState variables.
* `applyValidateEmail` / `applyValidateInvite` mirror the state updates
  and returned boolean of `validateEmail` / `validateInviteCode`, as a
  function of the fetch outcome.
* `handleSubmitSync` mirrors the synchronous part of `handleSubmit`
  (local checks, the reset batch, the two outgoing requests).
* `step` is a labeled transition function tying these together: the
  submit step issues both requests before either response can be
  delivered (Promise.all invokes both async functions up to their first
  await synchronously), each response is delivered by its own step, and
  the join step (the then/finally callbacks, which run as microtasks
  with no user event interleaved between them) fires only after both
  responses were delivered.  Edit steps are enabled in every phase: the
  inputs are never disabled, so edits can interleave with an in-flight
  attempt, as the source preserves.
-/

namespace DV

/-- Untyped JS/JSON values as delivered by response.json(). -/
inductive JsValue where
  | vundefined
  | vnull
  | vbool (b : Bool)
  | vnum (n : Int)
  | vstr (s : String)
  | vobj (fields : List (String × JsValue))

mutual

/-- Structural equality test on JS values. -/
def JsValue.beq : JsValue → JsValue → Bool
  | .vundefined, .vundefined => true
  | .vnull, .vnull => true
  | .vbool a, .vbool b => a == b
  | .vnum a, .vnum b => a == b
  | .vstr a, .vstr b => a == b
  | .vobj a, .vobj b => JsValue.beqFields a b
  | _, _ => false

/-- Structural equality test on object field lists. -/
def JsValue.beqFields : List (String × JsValue) → List (String × JsValue) → Bool
  | [], [] => true
  | (k1, v1) :: r1, (k2, v2) :: r2 =>
      k1 == k2 && JsValue.beq v1 v2 && JsValue.beqFields r1 r2
  | _, _ => false

end

instance : BEq JsValue := ⟨JsValue.beq⟩

mutual

/-- beq is sound for equality. -/
theorem JsValue.eq_of_beq : ∀ {a b : JsValue}, JsValue.beq a b = true → a = b
  | .vundefined, b, h => by cases b <;> first | rfl | simp [JsValue.beq] at h
  | .vnull, b, h => by cases b <;> first | rfl | simp [JsValue.beq] at h
  | .vbool x, b, h => by cases b <;> simp_all [JsValue.beq]
  | .vnum x, b, h => by cases b <;> simp_all [JsValue.beq]
  | .vstr x, b, h => by cases b <;> simp_all [JsValue.beq]
  | .vobj xs, .vundefined, h => by simp [JsValue.beq] at h
  | .vobj xs, .vnull, h => by simp [JsValue.beq] at h
  | .vobj xs, .vbool _, h => by simp [JsValue.beq] at h
  | .vobj xs, .vnum _, h => by simp [JsValue.beq] at h
  | .vobj xs, .vstr _, h => by simp [JsValue.beq] at h
  | .vobj xs, .vobj ys, h =>
      congrArg JsValue.vobj (JsValue.eqFields_of_beq (by simpa [JsValue.beq] using h))

/-- beqFields is sound for equality. -/
theorem JsValue.eqFields_of_beq :
    ∀ {a b : List (String × JsValue)}, JsValue.beqFields a b = true → a = b
  | [], [], _ => rfl
  | [], (_, _) :: _, h => by simp [JsValue.beqFields] at h
  | (_, _) :: _, [], h => by simp [JsValue.beqFields] at h
  | (k1, v1) :: r1, (k2, v2) :: r2, h => by
      have h3 : (k1 == k2 && JsValue.beq v1 v2 && JsValue.beqFields r1 r2) = true := by
        simpa [JsValue.beqFields] using h
      have hk : k1 = k2 := by
        have := Bool.and_elim_left (Bool.and_elim_left h3)
        exact beq_iff_eq.mp this
      have hv : v1 = v2 := JsValue.eq_of_beq (Bool.and_elim_right (Bool.and_elim_left h3))
      have hr : r1 = r2 := JsValue.eqFields_of_beq (Bool.and_elim_right h3)
      rw [hk, hv, hr]

end

mutual

/-- beq is reflexive. -/
theorem JsValue.beq_refl : ∀ (a : JsValue), JsValue.beq a a = true
  | .vundefined => rfl
  | .vnull => rfl
  | .vbool x => by simp [JsValue.beq]
  | .vnum x => by simp [JsValue.beq]
  | .vstr x => by simp [JsValue.beq]
  | .vobj xs => by simpa [JsValue.beq] using JsValue.beqFields_refl xs

/-- beqFields is reflexive. -/
theorem JsValue.beqFields_refl : ∀ (a : List (String × JsValue)), JsValue.beqFields a a = true
  | [] => rfl
  | (k, v) :: r => by
      simp [JsValue.beqFields, JsValue.beq_refl v, JsValue.beqFields_refl r]

end

instance : DecidableEq JsValue := fun a b =>
  match h : JsValue.beq a b with
  | true => isTrue (JsValue.eq_of_beq h)
  | false => isFalse (fun he => by
      rw [he, JsValue.beq_refl] at h
      exact Bool.noConfusion h)

/-- JS truthiness of a value. -/
def truthy : JsValue → Bool
  | .vundefined => false
  | .vnull => false
  | .vbool b => b
  | .vnum n => n != 0
  | .vstr s => s != ""
  | .vobj _ => true

/-- First binding of a key in an object literal. -/
def lookupField : List (String × JsValue) → String → JsValue
  | [], _ => .vundefined
  | (k, v) :: rest, key => if k == key then v else lookupField rest key

/-- JS property access: missing properties and non-objects give undefined. -/
def getProp : JsValue → String → JsValue
  | .vobj fs, key => lookupField fs key
  | _, _ => .vundefined

/-- JS optional chaining v?.key: null/undefined short-circuit to undefined. -/
def optChainProp (v : JsValue) (key : String) : JsValue :=
  match v with
  | .vundefined => .vundefined
  | .vnull => .vundefined
  | w => getProp w key

/-- JS a || b on values. -/
def jsOr (a b : JsValue) : JsValue :=
  if truthy a then a else b

/-- JS a || b on strings (empty string is falsy). -/
def orElseStr (a b : String) : String :=
  if a == "" then b else a

/-- The nine useState variables of DualValidator.  The invite metadata
eventName is a JsValue because setEventName receives data.event?.name || ""
from an untyped payload. -/
structure FormState where
  email : String
  emailValidated : Bool
  emailError : String
  inviteCode : String
  inviteValidated : Bool
  inviteError : String
  eventName : JsValue
  loading : Bool
  submitted : Bool
deriving DecidableEq

/-- Component-mount defaults: every useState starts at "" or false. -/
def initState : FormState :=
  { email := "", emailValidated := false, emailError := ""
  , inviteCode := "", inviteValidated := false, inviteError := ""
  , eventName := .vstr "", loading := false, submitted := false }

/-- Outcome of one fetch to a validation endpoint: a 2xx response with a
parsed JSON body, a non-2xx response with its body text, or a thrown
error carrying e.message (JS default message is the empty string). -/
inductive FetchOutcome where
  | success (body : JsValue)
  | httpError (bodyText : String)
  | exn (msg : String)
deriving DecidableEq

/-- State update and returned boolean of validateEmail (lines 48-92),
given the fetch outcome.  The acceptance test is data && data.allowed === true. -/
def applyValidateEmail : FetchOutcome → FormState → FormState × Bool
  | .httpError errorText, s =>
      ({ s with emailError := "API Error: " ++ errorText
              , emailValidated := false }, false)
  | .success data, s =>
      if truthy data && (getProp data "allowed" == .vbool true) then
        ({ s with emailValidated := true, emailError := "" }, true)
      else
        ({ s with emailError := "Email not found or not allowed"
                , emailValidated := false }, false)
  | .exn msg, s =>
      ({ s with emailError := orElseStr msg "Email validation failed. Try again."
              , emailValidated := false }, false)

/-- State update and returned boolean of validateInviteCode (lines 95-143).
The acceptance test is truthiness of data.valid; on success the metadata
becomes data.event?.name || "". -/
def applyValidateInvite : FetchOutcome → FormState → FormState × Bool
  | .httpError errorText, s =>
      ({ s with inviteError := "API Error: " ++ errorText
              , inviteValidated := false, eventName := .vstr "" }, false)
  | .success data, s =>
      if truthy (getProp data "valid") then
        ({ s with inviteValidated := true, inviteError := ""
                , eventName := jsOr (optChainProp (getProp data "event") "name") (.vstr "") }, true)
      else
        ({ s with inviteError := "Invalid invite code"
                , inviteValidated := false, eventName := .vstr "" }, false)
  | .exn msg, s =>
      ({ s with inviteError := orElseStr msg "Invite validation failed. Try again."
              , inviteValidated := false, eventName := .vstr "" }, false)

/-- Characters matched by the JS regex character class \s. -/
def isJsSpace (c : Char) : Bool :=
  c == ' ' || c == '\t' || c == '\n' || c == '\x0b' || c == '\x0c' || c == '\r' ||
  c.toNat == 0xa0 || c.toNat == 0x1680 ||
  (0x2000 ≤ c.toNat && c.toNat ≤ 0x200a) ||
  c.toNat == 0x2028 || c.toNat == 0x2029 || c.toNat == 0x202f ||
  c.toNat == 0x205f || c.toNat == 0x3000 || c.toNat == 0xfeff

/-- Characters matched by the class [^@\s]. -/
def isNameChar (c : Char) : Bool :=
  !(c == '@') && !(isJsSpace c)

/-- Full-match test of the email regex of line 147,
/^[^@\s]+@[^@\s]+\.[^@\s]+$/: the string must decompose as
a ++ "@" ++ rest with a nonempty and all name characters, rest all name
characters, and rest containing a dot that is neither its first nor its
last character (so that nonempty runs surround the literal dot). -/
def emailRegexTest (s : String) : Bool :=
  let cs := s.toList
  let a := cs.takeWhile (fun c => !(c == '@'))
  match cs.dropWhile (fun c => !(c == '@')) with
  | '@' :: rest =>
      !a.isEmpty && a.all isNameChar && rest.all isNameChar &&
      ((rest.drop 1).dropLast.contains '.')
  | _ => false

/-- Configuration props consulted by the orchestration logic.  An
unconfigured successPageUrl is modelled as the empty string (both the
empty string and undefined are falsy for the || fallback on line 182). -/
structure Props where
  supabaseUrl : String
  successPageUrl : String
deriving DecidableEq

def validateEmailUrl (p : Props) : String :=
  p.supabaseUrl ++ "/functions/v1/validate-email"

def validateInviteUrl (p : Props) : String :=
  p.supabaseUrl ++ "/functions/v1/validate-invite-code"

/-- Fallback redirect destination of line 183. -/
def defaultSuccessUrl : String := "https://www.wingedapp.com/"

/-- Observable effects on external collaborators: outgoing POST requests
(url and the single payload value of the JSON body), the onSuccess and
onFail callbacks, and the setTimeout redirect with its delay in ms. -/
inductive Effect where
  | request (url : String) (payload : String)
  | onSuccess
  | onFail
  | redirect (url : String) (delayMs : Nat)
deriving BEq, DecidableEq

/-- Result of the synchronous part of handleSubmit (lines 145-172):
either an early return from one of the two local checks, or the reset
batch together with the two requests issued by Promise.all. -/
inductive SubmitOutcome where
  | abortEmail (s : FormState)
  | abortInvite (s : FormState)
  | proceed (s : FormState) (effs : List Effect)
deriving DecidableEq

/-- Synchronous part of handleSubmit: the email shape check
(!email || !regex.test(email)), the invite nonemptiness check, then the
batched reset (lines 162-170, one startTransition, hence one atomic
update before any await) and both requests. -/
def handleSubmitSync (p : Props) (s : FormState) : SubmitOutcome :=
  if s.email == "" || !emailRegexTest s.email then
    .abortEmail { s with emailError := "Valid email is required."
                       , emailValidated := false }
  else if s.inviteCode == "" then
    .abortInvite { s with inviteError := "Invite code is required."
                        , inviteValidated := false, eventName := .vstr "" }
  else
    .proceed
      { s with loading := true, emailError := "", inviteError := ""
             , submitted := false, emailValidated := false
             , inviteValidated := false, eventName := .vstr "" }
      [ .request (validateEmailUrl p) s.email
      , .request (validateInviteUrl p) s.inviteCode ]

/-- handleEmailChange (lines 203-209): store the new value; clear the
validated flag and error only when one of them is set. -/
def handleEmailChange (v : String) (s : FormState) : FormState :=
  if s.emailValidated || s.emailError != "" then
    { s with email := v, emailValidated := false, emailError := "" }
  else
    { s with email := v }

/-- handleInviteChange (lines 210-217): store the new value; clear the
validated flag, error and metadata only when flag or error is set. -/
def handleInviteChange (v : String) (s : FormState) : FormState :=
  if s.inviteValidated || s.inviteError != "" then
    { s with inviteCode := v, inviteValidated := false, inviteError := ""
           , eventName := .vstr "" }
  else
    { s with inviteCode := v }

/-- Progress of one submission attempt: idle, or validating with the
booleans already returned by each validator (none = still in flight). -/
inductive Phase where
  | idle
  | validating (emailRes inviteRes : Option Bool)
deriving DecidableEq

structure GState where
  form : FormState
  phase : Phase
deriving DecidableEq

/-- Events driving the component: a submit, delivery of one fetch
outcome to either validator, the Promise.all join (then + finally
callbacks), and user edits of either input. -/
inductive Action where
  | submit
  | respondEmail (o : FetchOutcome)
  | respondInvite (o : FetchOutcome)
  | deliverJoin
  | editEmail (v : String)
  | editInvite (v : String)
deriving DecidableEq

/-- Labeled transition function.  none means the event cannot occur in
this phase: a second submit while an attempt is in flight is prevented
by the disabled button (disabled = loading || !email || !inviteCode), a
response can arrive only for a request still in flight, and the join
callback runs only once both promises settled.  The join merges the
then branch (lines 173-188) with the finally (lines 189-193): both are
microtasks, so no user event interleaves between them. -/
def step (p : Props) (g : GState) : Action → Option (GState × List Effect)
  | .editEmail v => some (⟨handleEmailChange v g.form, g.phase⟩, [])
  | .editInvite v => some (⟨handleInviteChange v g.form, g.phase⟩, [])
  | .submit =>
    match g.phase with
    | .idle =>
      match handleSubmitSync p g.form with
      | .abortEmail s => some (⟨s, .idle⟩, [])
      | .abortInvite s => some (⟨s, .idle⟩, [])
      | .proceed s effs => some (⟨s, .validating none none⟩, effs)
    | _ => none
  | .respondEmail o =>
    match g.phase with
    | .validating none ir =>
        some (⟨(applyValidateEmail o g.form).1,
               .validating (some (applyValidateEmail o g.form).2) ir⟩, [])
    | _ => none
  | .respondInvite o =>
    match g.phase with
    | .validating er none =>
        some (⟨(applyValidateInvite o g.form).1,
               .validating er (some (applyValidateInvite o g.form).2)⟩, [])
    | _ => none
  | .deliverJoin =>
    match g.phase with
    | .validating (some eb) (some ib) =>
      if eb && ib then
        some (⟨{ g.form with submitted := true, loading := false }, .idle⟩,
              [ .onSuccess
              , .redirect (orElseStr p.successPageUrl defaultSuccessUrl) 1500 ])
      else
        some (⟨{ g.form with loading := false }, .idle⟩, [.onFail])
    | _ => none

/-- Total version of step: disabled events leave the state unchanged. -/
def stepA (p : Props) (g : GState) (a : Action) : GState × List Effect :=
  match step p g a with
  | some r => r
  | none => (g, [])

/-- Run a list of events, collecting the emitted effects. -/
def runFrom (p : Props) (g : GState) : List Action → GState × List Effect
  | [] => (g, [])
  | a :: rest =>
      let r1 := stepA p g a
      let r2 := runFrom p r1.1 rest
      (r2.1, r1.2 ++ r2.2)

def initG : GState := ⟨initState, .idle⟩

/-- A state is reachable when some event sequence from the mount state
produces it. -/
def Reachable (p : Props) (g : GState) : Prop :=
  ∃ acts : List Action, (runFrom p initG acts).1 = g

/-- Sample configuration used in witnesses: no successPageUrl configured. -/
def p0 : Props := { supabaseUrl := "https://example.supabase.co", successPageUrl := "" }

/-- Sample form with a well-shaped email and a nonempty invite code. -/
def s0 : FormState := { initState with email := "a@b.c", inviteCode := "code" }

/-- Sample email payload accepted by the email validator. -/
def dEok : JsValue := .vobj [("allowed", .vbool true)]

/-- Sample invite payload accepted by the invite validator, with an event name. -/
def dIok : JsValue := .vobj [("valid", .vbool true), ("event", .vobj [("name", .vstr "Launch")])]

/-- Sample form with a malformed email value. -/
def s0foo : FormState := { s0 with email := "foo" }

/-- Sample form in which both fields just validated. -/
def s0valid : FormState :=
  { s0 with emailValidated := true, inviteValidated := true, eventName := .vstr "Launch" }

/-- Behaviour of the regex model on characteristic shapes. -/
theorem emailRegexTest_samples :
    emailRegexTest "a@b.c" = true ∧ emailRegexTest "a@b" = false ∧
    emailRegexTest "a b@c.d" = false ∧ emailRegexTest "" = false ∧
    emailRegexTest "a@.c" = false ∧ emailRegexTest "a@b." = false ∧
    emailRegexTest "a@b..c" = true ∧ emailRegexTest "a@@b.c" = false := by
  decide

/-- C2 counterexample: on a non-2xx response with body text boom, the
error written to the email field is the string API Error: boom, not the
response body text itself as the claim states. -/
theorem claim2_counterexample :
    (applyValidateEmail (.httpError "boom") initState).1.emailError = "API Error: boom" ∧
    (applyValidateEmail (.httpError "boom") initState).1.emailError ≠ "boom" := by
  decide

/-- C2 (amended): a non-2xx response on either call yields a transport
error whose reason is the fixed prefix API Error: followed by the
response body text; that prefixed reason is written as the field error,
the validated flag is cleared, and (invite case) the metadata is
cleared; the validator returns false. -/
theorem claim2_nonok_error_text (s : FormState) (t : String) :
    applyValidateEmail (.httpError t) s =
      ({ s with emailError := "API Error: " ++ t, emailValidated := false }, false) ∧
    applyValidateInvite (.httpError t) s =
      ({ s with inviteError := "API Error: " ++ t, inviteValidated := false
              , eventName := .vstr "" }, false) :=
  ⟨rfl, rfl⟩

/-- C3: a submit whose email value is empty or fails the local shape
regex aborts synchronously: only the email error and validated flag
change, the outcome is the early return (no reset, loading untouched),
and the submit step emits no effect at all, so no request is issued and
the invite field is neither checked nor modified. -/
theorem claim3_local_email_abort (p : Props) (s : FormState)
    (h : s.email = "" ∨ emailRegexTest s.email = false) :
    handleSubmitSync p s =
      .abortEmail { s with emailError := "Valid email is required."
                         , emailValidated := false } ∧
    step p ⟨s, .idle⟩ .submit =
      some (⟨{ s with emailError := "Valid email is required."
                    , emailValidated := false }, .idle⟩, []) := by
  have hg : handleSubmitSync p s =
      .abortEmail { s with emailError := "Valid email is required."
                         , emailValidated := false } := by
    unfold handleSubmitSync
    rcases h with h | h <;> simp [h]
  exact ⟨hg, by simp [step, hg]⟩

/-- C3 witness at a concrete malformed email. -/
theorem claim3_witness :
    (s0foo.email = "" ∨ emailRegexTest s0foo.email = false) ∧
    (handleSubmitSync p0 s0foo =
      .abortEmail { s0foo with emailError := "Valid email is required.", emailValidated := false } ∧
    step p0 ⟨s0foo, .idle⟩ .submit =
      some (⟨{ s0foo with emailError := "Valid email is required.", emailValidated := false },
             .idle⟩, [])) :=
  ⟨by decide, claim3_local_email_abort p0 s0foo (by decide)⟩

/-- C4: when both local checks pass, the synchronous part of submit
performs the reset as one batched update, before any response can be
processed: loading true, both errors empty, submitted false, both
validated flags false, metadata cleared; the two requests are issued
together with it. -/
theorem claim4_reset_batch (p : Props) (s : FormState)
    (h1 : emailRegexTest s.email = true) (h2 : s.inviteCode ≠ "") :
    handleSubmitSync p s =
      .proceed
        { s with loading := true, emailError := "", inviteError := ""
               , submitted := false, emailValidated := false
               , inviteValidated := false, eventName := .vstr "" }
        [ .request (validateEmailUrl p) s.email
        , .request (validateInviteUrl p) s.inviteCode ] ∧
    step p ⟨s, .idle⟩ .submit =
      some (⟨{ s with loading := true, emailError := "", inviteError := ""
                    , submitted := false, emailValidated := false
                    , inviteValidated := false, eventName := .vstr "" },
             .validating none none⟩,
            [ .request (validateEmailUrl p) s.email
            , .request (validateInviteUrl p) s.inviteCode ]) := by
  have he : s.email ≠ "" := by
    intro h0
    rw [h0] at h1
    exact absurd h1 (by decide)
  have hg : handleSubmitSync p s =
      .proceed
        { s with loading := true, emailError := "", inviteError := ""
               , submitted := false, emailValidated := false
               , inviteValidated := false, eventName := .vstr "" }
        [ .request (validateEmailUrl p) s.email
        , .request (validateInviteUrl p) s.inviteCode ] := by
    unfold handleSubmitSync
    simp [he, h1, h2]
  exact ⟨hg, by simp [step, hg]⟩

/-- C4 witness at a concrete well-formed state. -/
theorem claim4_witness :
    emailRegexTest s0.email = true ∧ s0.inviteCode ≠ "" ∧
    (handleSubmitSync p0 s0 =
      .proceed
        { s0 with loading := true, emailError := "", inviteError := ""
                , submitted := false, emailValidated := false
                , inviteValidated := false, eventName := .vstr "" }
        [ .request (validateEmailUrl p0) s0.email
        , .request (validateInviteUrl p0) s0.inviteCode ] ∧
    step p0 ⟨s0, .idle⟩ .submit =
      some (⟨{ s0 with loading := true, emailError := "", inviteError := ""
                     , submitted := false, emailValidated := false
                     , inviteValidated := false, eventName := .vstr "" },
             .validating none none⟩,
            [ .request (validateEmailUrl p0) s0.email
            , .request (validateInviteUrl p0) s0.inviteCode ])) :=
  ⟨by decide, by decide, claim4_reset_batch p0 s0 (by decide) (by decide)⟩

/-- C8: an email edit stores the new value and clears only that field
validated flag and error, leaving the entire invite state unchanged;
an invite edit stores the new value and clears the invite validated
flag, error and metadata, leaving the email state unchanged.  The
hypothesis is the reachable-state invariant that a non-cleared metadata
only occurs with a validated invite. -/
theorem claim8_edit_clears_own_field (s : FormState) (v w : String)
    (hmeta : s.eventName ≠ .vstr "" → s.inviteValidated = true) :
    handleEmailChange v s =
      { s with email := v, emailValidated := false, emailError := "" } ∧
    handleInviteChange w s =
      { s with inviteCode := w, inviteValidated := false, inviteError := ""
             , eventName := .vstr "" } := by
  obtain ⟨e, ev, ee, ic, iv, ie, en, l, sb⟩ := s
  constructor
  · unfold handleEmailChange
    by_cases hv : ev = true
    · simp [hv]
    · have hev : ev = false := by simpa using hv
      by_cases herr : ee = ""
      · simp [hev, herr]
      · simp [herr]
  · unfold handleInviteChange
    by_cases hv : iv = true
    · simp [hv]
    · have hiv : iv = false := by simpa using hv
      by_cases herr : ie = ""
      · have hen : en = .vstr "" := by
          by_contra hne
          have h2 := hmeta hne
          simp only [] at h2
          rw [hiv] at h2
          exact Bool.noConfusion h2
        simp [hiv, herr, hen]
      · simp [herr]

/-- C8 witness at a concrete validated state. -/
theorem claim8_witness :
    (s0valid.eventName ≠ .vstr "" → s0valid.inviteValidated = true) ∧
    (handleEmailChange "x" s0valid =
      { s0valid with email := "x", emailValidated := false, emailError := "" } ∧
    handleInviteChange "y" s0valid =
      { s0valid with inviteCode := "y", inviteValidated := false, inviteError := ""
                   , eventName := .vstr "" }) :=
  ⟨fun _ => by decide,
   claim8_edit_clears_own_field s0valid "x" "y" (fun _ => by decide)⟩

/-- C9: the email validator accepts only a truthy payload whose allowed
field is strictly the boolean true, while the invite validator accepts
any payload whose valid field is truthy; in particular allowed of 1 or
of the string yes is rejected while valid of 1 or of the string yes is
accepted. -/
theorem claim9_acceptance_asymmetry :
    (∀ (s : FormState) (d : JsValue),
        (applyValidateEmail (.success d) s).2 =
          (truthy d && (getProp d "allowed" == JsValue.vbool true))) ∧
    (∀ (s : FormState) (d : JsValue),
        (applyValidateInvite (.success d) s).2 = truthy (getProp d "valid")) ∧
    (applyValidateEmail (.success (.vobj [("allowed", .vnum 1)])) initState).2 = false ∧
    (applyValidateEmail (.success (.vobj [("allowed", .vstr "yes")])) initState).1.emailError
      = "Email not found or not allowed" ∧
    (applyValidateInvite (.success (.vobj [("valid", .vnum 1)])) initState).2 = true ∧
    (applyValidateInvite (.success (.vobj [("valid", .vstr "yes")])) initState).1.inviteValidated
      = true := by
  refine ⟨?_, ?_, by decide, by decide, by decide, by decide⟩
  · intro s d
    unfold applyValidateEmail
    cases h : truthy d && (getProp d "allowed" == JsValue.vbool true) <;> simp [h]
  · intro s d
    unfold applyValidateInvite
    cases h : truthy (getProp d "valid") <;> simp [h]

/-- C1: when both local checks passed and both validators resolve Valid
(email payload truthy with allowed strictly true, invite payload with
truthy valid), the attempt ends with submitted true, the invite
metadata set to the event name taken from the invite response, loading
false, and the effect trace is exactly: one request per endpoint, one
onSuccess invocation, and one redirect scheduled after 1500 ms to the
configured destination or the fixed fallback URL when none is
configured. -/
theorem claim1_success_join (p : Props) (s : FormState) (dE dI : JsValue)
    (hre : emailRegexTest s.email = true) (hinv : s.inviteCode ≠ "")
    (hallowed : (truthy dE && (getProp dE "allowed" == JsValue.vbool true)) = true)
    (hvalid : truthy (getProp dI "valid") = true) :
    runFrom p ⟨s, .idle⟩
        [ .submit, .respondEmail (.success dE), .respondInvite (.success dI), .deliverJoin ] =
      (⟨{ s with loading := false, emailError := "", inviteError := ""
               , submitted := true, emailValidated := true, inviteValidated := true
               , eventName := jsOr (optChainProp (getProp dI "event") "name") (.vstr "") },
        .idle⟩,
       [ .request (validateEmailUrl p) s.email
       , .request (validateInviteUrl p) s.inviteCode
       , .onSuccess
       , .redirect (orElseStr p.successPageUrl defaultSuccessUrl) 1500 ]) := by
  obtain ⟨e, ev, ee, ic, iv, ie, en, l, sb⟩ := s
  simp only [] at hre hinv
  have he : e ≠ "" := by
    intro h0
    rw [h0] at hre
    exact absurd hre (by decide)
  simp [runFrom, stepA, step, handleSubmitSync, applyValidateEmail, applyValidateInvite,
        he, hre, hinv, hallowed, hvalid]

/-- C1 witness at concrete inputs. -/
theorem claim1_witness :
    emailRegexTest s0.email = true ∧ s0.inviteCode ≠ "" ∧
    (truthy dEok && (getProp dEok "allowed" == JsValue.vbool true)) = true ∧
    truthy (getProp dIok "valid") = true ∧
    runFrom p0 ⟨s0, .idle⟩
        [ .submit, .respondEmail (.success dEok), .respondInvite (.success dIok), .deliverJoin ] =
      (⟨{ s0 with loading := false, emailError := "", inviteError := ""
                , submitted := true, emailValidated := true, inviteValidated := true
                , eventName := jsOr (optChainProp (getProp dIok "event") "name") (.vstr "") },
        .idle⟩,
       [ .request (validateEmailUrl p0) s0.email
       , .request (validateInviteUrl p0) s0.inviteCode
       , .onSuccess
       , .redirect (orElseStr p0.successPageUrl defaultSuccessUrl) 1500 ]) :=
  ⟨by decide, by decide, by decide, by decide,
   claim1_success_join p0 s0 dEok dIok (by decide) (by decide) (by decide) (by decide)⟩

/-- C5: in the embedding of the Promise.all orchestration, (1) the
submit step that passes both local checks issues both requests in the
same step, entering the phase in which neither validator has resolved,
so both are in flight before either response can be delivered; (2) the
join fires only in a phase where both validators have settled; (3, 4)
after either validator settled, with any result including failure, the
other response is still delivered and applied, so the failure of one
does not cancel the other in-flight request. -/
theorem claim5_concurrent_join (p : Props) (s : FormState)
    (hre : emailRegexTest s.email = true) (hinv : s.inviteCode ≠ "") :
    (step p ⟨s, .idle⟩ .submit =
      some (⟨{ s with loading := true, emailError := "", inviteError := ""
                    , submitted := false, emailValidated := false
                    , inviteValidated := false, eventName := .vstr "" },
             .validating none none⟩,
            [ .request (validateEmailUrl p) s.email
            , .request (validateInviteUrl p) s.inviteCode ])) ∧
    (∀ (g g1 : GState) (effs : List Effect),
        step p g .deliverJoin = some (g1, effs) →
        ∃ eb ib : Bool, g.phase = .validating (some eb) (some ib)) ∧
    (∀ (s2 : FormState) (er : Bool) (o : FetchOutcome),
        step p ⟨s2, .validating (some er) none⟩ (.respondInvite o) =
          some (⟨(applyValidateInvite o s2).1,
                 .validating (some er) (some (applyValidateInvite o s2).2)⟩, [])) ∧
    (∀ (s2 : FormState) (ir : Bool) (o : FetchOutcome),
        step p ⟨s2, .validating none (some ir)⟩ (.respondEmail o) =
          some (⟨(applyValidateEmail o s2).1,
                 .validating (some (applyValidateEmail o s2).2) (some ir)⟩, [])) := by
  refine ⟨?_, ?_, fun s2 er o => rfl, fun s2 ir o => rfl⟩
  · have he : s.email ≠ "" := by
      intro h0
      rw [h0] at hre
      exact absurd hre (by decide)
    simp [step, handleSubmitSync, he, hre, hinv]
  · intro g g1 effs hstep
    obtain ⟨f, ph⟩ := g
    cases ph with
    | idle => simp [step] at hstep
    | validating er ir =>
        cases er with
        | none => simp [step] at hstep
        | some eb =>
            cases ir with
            | none => simp [step] at hstep
            | some ib => exact ⟨eb, ib, rfl⟩

/-- C5 witness at concrete inputs. -/
theorem claim5_witness :
    emailRegexTest s0.email = true ∧ s0.inviteCode ≠ "" ∧
    ((step p0 ⟨s0, .idle⟩ .submit =
      some (⟨{ s0 with loading := true, emailError := "", inviteError := ""
                     , submitted := false, emailValidated := false
                     , inviteValidated := false, eventName := .vstr "" },
             .validating none none⟩,
            [ .request (validateEmailUrl p0) s0.email
            , .request (validateInviteUrl p0) s0.inviteCode ])) ∧
    (∀ (g g1 : GState) (effs : List Effect),
        step p0 g .deliverJoin = some (g1, effs) →
        ∃ eb ib : Bool, g.phase = .validating (some eb) (some ib)) ∧
    (∀ (s2 : FormState) (er : Bool) (o : FetchOutcome),
        step p0 ⟨s2, .validating (some er) none⟩ (.respondInvite o) =
          some (⟨(applyValidateInvite o s2).1,
                 .validating (some er) (some (applyValidateInvite o s2).2)⟩, [])) ∧
    (∀ (s2 : FormState) (ir : Bool) (o : FetchOutcome),
        step p0 ⟨s2, .validating none (some ir)⟩ (.respondEmail o) =
          some (⟨(applyValidateEmail o s2).1,
                 .validating (some (applyValidateEmail o s2).2) (some ir)⟩, []))) :=
  ⟨by decide, by decide, claim5_concurrent_join p0 s0 (by decide) (by decide)⟩

/-- C6: when the email validator resolves Valid but the invite request
throws with message m, the attempt ends with the email field validated,
the invite error equal to m, or to the fixed fallback message when the
error has no message (empty m), loading false, and onFail invoked. -/
theorem claim6_invite_throws (p : Props) (s : FormState) (dE : JsValue) (m : String)
    (hre : emailRegexTest s.email = true) (hinv : s.inviteCode ≠ "")
    (hallowed : (truthy dE && (getProp dE "allowed" == JsValue.vbool true)) = true) :
    runFrom p ⟨s, .idle⟩
        [ .submit, .respondEmail (.success dE), .respondInvite (.exn m), .deliverJoin ] =
      (⟨{ s with loading := false, emailError := "", submitted := false
               , emailValidated := true, inviteValidated := false
               , inviteError := orElseStr m "Invite validation failed. Try again."
               , eventName := .vstr "" },
        .idle⟩,
       [ .request (validateEmailUrl p) s.email
       , .request (validateInviteUrl p) s.inviteCode
       , .onFail ]) := by
  obtain ⟨e, ev, ee, ic, iv, ie, en, l, sb⟩ := s
  simp only [] at hre hinv
  have he : e ≠ "" := by
    intro h0
    rw [h0] at hre
    exact absurd hre (by decide)
  simp [runFrom, stepA, step, handleSubmitSync, applyValidateEmail, applyValidateInvite,
        he, hre, hinv, hallowed]

/-- C6 witness at concrete inputs, with a message-less error. -/
theorem claim6_witness :
    emailRegexTest s0.email = true ∧ s0.inviteCode ≠ "" ∧
    (truthy dEok && (getProp dEok "allowed" == JsValue.vbool true)) = true ∧
    runFrom p0 ⟨s0, .idle⟩
        [ .submit, .respondEmail (.success dEok), .respondInvite (.exn ""), .deliverJoin ] =
      (⟨{ s0 with loading := false, emailError := "", submitted := false
                , emailValidated := true, inviteValidated := false
                , inviteError := orElseStr "" "Invite validation failed. Try again."
                , eventName := .vstr "" },
        .idle⟩,
       [ .request (validateEmailUrl p0) s0.email
       , .request (validateInviteUrl p0) s0.inviteCode
       , .onFail ]) :=
  ⟨by decide, by decide, by decide,
   claim6_invite_throws p0 s0 dEok "" (by decide) (by decide) (by decide)⟩

/-- An email edit never changes the submitted flag. -/
lemma submitted_handleEmailChange (v : String) (f : FormState) :
    (handleEmailChange v f).submitted = f.submitted := by
  unfold handleEmailChange
  split <;> rfl

/-- An invite edit never changes the submitted flag. -/
lemma submitted_handleInviteChange (v : String) (f : FormState) :
    (handleInviteChange v f).submitted = f.submitted := by
  unfold handleInviteChange
  split <;> rfl

/-- The email validator update never changes the submitted flag. -/
lemma submitted_applyValidateEmail (o : FetchOutcome) (f : FormState) :
    ((applyValidateEmail o f).1).submitted = f.submitted := by
  unfold applyValidateEmail
  split <;> first | rfl | (split <;> rfl)

/-- The invite validator update never changes the submitted flag. -/
lemma submitted_applyValidateInvite (o : FetchOutcome) (f : FormState) :
    ((applyValidateInvite o f).1).submitted = f.submitted := by
  unfold applyValidateInvite
  split <;> first | rfl | (split <;> rfl)

/-- The email-check early return leaves submitted unchanged. -/
lemma submitted_abortEmail (p : Props) (f s1 : FormState)
    (h : handleSubmitSync p f = .abortEmail s1) : s1.submitted = f.submitted := by
  unfold handleSubmitSync at h
  split at h
  · injection h with h1
    rw [← h1]
  · split at h
    · exact absurd h (by simp)
    · exact absurd h (by simp)

/-- The invite-check early return leaves submitted unchanged. -/
lemma submitted_abortInvite (p : Props) (f s1 : FormState)
    (h : handleSubmitSync p f = .abortInvite s1) : s1.submitted = f.submitted := by
  unfold handleSubmitSync at h
  split at h
  · exact absurd h (by simp)
  · split at h
    · injection h with h1
      rw [← h1]
    · exact absurd h (by simp)

/-- The reset batch of a proceeding submit sets submitted to false. -/
lemma submitted_proceed (p : Props) (f s1 : FormState) (effs : List Effect)
    (h : handleSubmitSync p f = .proceed s1 effs) : s1.submitted = false := by
  unfold handleSubmitSync at h
  split at h
  · exact absurd h (by simp)
  · split at h
    · exact absurd h (by simp)
    · injection h with h1 h2
      rw [← h1]

/-- C7 counterexample: run the trace edit, edit, submit, email response
Valid, email edit, invite response Valid, join.  At the moment of the
join both validators have returned Valid, yet the email validated flag
is false (the edit cleared it), and the join still sets submitted true,
leaving a final state with submitted true and email not validated. -/
theorem claim7_counterexample :
    ((runFrom p0 initG
        [ .editEmail "a@b.c", .editInvite "code", .submit
        , .respondEmail (.success dEok), .editEmail "x@y.z"
        , .respondInvite (.success dIok) ]).1.phase
      = .validating (some true) (some true)) ∧
    ((runFrom p0 initG
        [ .editEmail "a@b.c", .editInvite "code", .submit
        , .respondEmail (.success dEok), .editEmail "x@y.z"
        , .respondInvite (.success dIok) ]).1.form.emailValidated = false) ∧
    ((runFrom p0 initG
        [ .editEmail "a@b.c", .editInvite "code", .submit
        , .respondEmail (.success dEok), .editEmail "x@y.z"
        , .respondInvite (.success dIok), .deliverJoin ]).1.form.submitted = true) ∧
    ((runFrom p0 initG
        [ .editEmail "a@b.c", .editInvite "code", .submit
        , .respondEmail (.success dEok), .editEmail "x@y.z"
        , .respondInvite (.success dIok), .deliverJoin ]).1.form.emailValidated = false) := by
  decide

/-- C7 (amended): submitted is only ever set to true by the join step
of an attempt in which both validators returned Valid (and the reset of
a proceeding submit sets it back to false); because an edit arriving
between a validator response and the join clears that field validated
flag without cancelling the attempt, the validated flags themselves
need not still be true at the join. -/
theorem claim7_submitted_only_by_join (p : Props) (g g1 : GState) (a : Action)
    (effs : List Effect) (hstep : step p g a = some (g1, effs))
    (hpre : g.form.submitted = false) (hpost : g1.form.submitted = true) :
    a = .deliverJoin ∧ g.phase = .validating (some true) (some true) := by
  obtain ⟨f, ph⟩ := g
  simp only [] at hpre
  cases a with
  | editEmail v =>
      exfalso
      simp [step, Option.some.injEq, Prod.mk.injEq] at hstep
      obtain ⟨rfl, rfl⟩ := hstep
      simp only [submitted_handleEmailChange] at hpost
      rw [hpre] at hpost
      exact Bool.noConfusion hpost
  | editInvite v =>
      exfalso
      simp [step, Option.some.injEq, Prod.mk.injEq] at hstep
      obtain ⟨rfl, rfl⟩ := hstep
      simp only [submitted_handleInviteChange] at hpost
      rw [hpre] at hpost
      exact Bool.noConfusion hpost
  | submit =>
      exfalso
      cases ph with
      | validating er ir => simp [step] at hstep
      | idle =>
          rcases hout : handleSubmitSync p f with ⟨s1⟩ | ⟨s1⟩ | ⟨s1, effs1⟩
          · simp [step, hout, Option.some.injEq, Prod.mk.injEq] at hstep
            obtain ⟨rfl, rfl⟩ := hstep
            simp only [] at hpost
            rw [submitted_abortEmail p f s1 hout, hpre] at hpost
            exact Bool.noConfusion hpost
          · simp [step, hout, Option.some.injEq, Prod.mk.injEq] at hstep
            obtain ⟨rfl, rfl⟩ := hstep
            simp only [] at hpost
            rw [submitted_abortInvite p f s1 hout, hpre] at hpost
            exact Bool.noConfusion hpost
          · simp [step, hout, Option.some.injEq, Prod.mk.injEq] at hstep
            obtain ⟨rfl, rfl⟩ := hstep
            simp only [] at hpost
            rw [submitted_proceed p f s1 effs1 hout] at hpost
            exact Bool.noConfusion hpost
  | respondEmail o =>
      exfalso
      cases ph with
      | idle => simp [step] at hstep
      | validating er ir =>
          cases er with
          | some eb => simp [step] at hstep
          | none =>
              simp [step, Option.some.injEq, Prod.mk.injEq] at hstep
              obtain ⟨rfl, rfl⟩ := hstep
              simp only [submitted_applyValidateEmail] at hpost
              rw [hpre] at hpost
              exact Bool.noConfusion hpost
  | respondInvite o =>
      exfalso
      cases ph with
      | idle => simp [step] at hstep
      | validating er ir =>
          cases ir with
          | some ib => simp [step] at hstep
          | none =>
              simp [step, Option.some.injEq, Prod.mk.injEq] at hstep
              obtain ⟨rfl, rfl⟩ := hstep
              simp only [submitted_applyValidateInvite] at hpost
              rw [hpre] at hpost
              exact Bool.noConfusion hpost
  | deliverJoin =>
      cases ph with
      | idle => simp [step] at hstep
      | validating er ir =>
          cases er with
          | none => simp [step] at hstep
          | some eb =>
              cases ir with
              | none => simp [step] at hstep
              | some ib =>
                  cases eb with
                  | true =>
                      cases ib with
                      | true => exact ⟨rfl, rfl⟩
                      | false =>
                          exfalso
                          simp [step, Option.some.injEq, Prod.mk.injEq] at hstep
                          obtain ⟨rfl, rfl⟩ := hstep
                          simp only [] at hpost
                          rw [hpre] at hpost
                          exact Bool.noConfusion hpost
                  | false =>
                      exfalso
                      simp [step, Option.some.injEq, Prod.mk.injEq] at hstep
                      obtain ⟨rfl, rfl⟩ := hstep
                      simp only [] at hpost
                      rw [hpre] at hpost
                      exact Bool.noConfusion hpost

/-- C7 witness: a join with both validators Valid applied to a concrete
loading state. -/
theorem claim7_witness :
    Action.deliverJoin = Action.deliverJoin ∧
    (⟨{ initState with loading := true }, .validating (some true) (some true)⟩ : GState).phase
      = .validating (some true) (some true) :=
  claim7_submitted_only_by_join p0
    ⟨{ initState with loading := true }, .validating (some true) (some true)⟩
    ⟨{ initState with submitted := true }, .idle⟩ .deliverJoin
    [ .onSuccess, .redirect defaultSuccessUrl 1500 ]
    (by decide) (by decide) (by decide)

/-- Metadata invariant: a non-cleared event name only occurs while the
invite field is validated. -/
def MetaInv (g : GState) : Prop :=
  g.form.eventName ≠ .vstr "" → g.form.inviteValidated = true

/-- An email edit changes neither the invite validated flag nor the
metadata. -/
lemma invite_handleEmailChange (v : String) (f : FormState) :
    (handleEmailChange v f).inviteValidated = f.inviteValidated ∧
    (handleEmailChange v f).eventName = f.eventName := by
  unfold handleEmailChange
  split <;> exact ⟨rfl, rfl⟩

/-- The email validator update changes neither the invite validated
flag nor the metadata. -/
lemma invite_applyValidateEmail (o : FetchOutcome) (f : FormState) :
    ((applyValidateEmail o f).1).inviteValidated = f.inviteValidated ∧
    ((applyValidateEmail o f).1).eventName = f.eventName := by
  unfold applyValidateEmail
  split <;> first | exact ⟨rfl, rfl⟩ | (split <;> exact ⟨rfl, rfl⟩)

/-- Every step preserves the metadata invariant. -/
lemma metaInv_step (p : Props) (g : GState) (a : Action) (h : MetaInv g) :
    MetaInv (stepA p g a).1 := by
  obtain ⟨f, ph⟩ := g
  cases a with
  | editEmail v =>
      intro hne
      simp only [stepA, step] at hne ⊢
      rw [(invite_handleEmailChange v f).1]
      rw [(invite_handleEmailChange v f).2] at hne
      exact h hne
  | editInvite v =>
      intro hne
      simp only [stepA, step] at hne ⊢
      unfold handleInviteChange at hne ⊢
      by_cases hc : (f.inviteValidated || f.inviteError != "") = true
      · rw [if_pos hc] at hne
        exact absurd rfl hne
      · rw [if_neg hc] at hne
        rw [if_neg hc]
        exact h hne
  | submit =>
      cases ph with
      | validating er ir => exact h
      | idle =>
          rcases hout : handleSubmitSync p f with ⟨s1⟩ | ⟨s1⟩ | ⟨s1, effs1⟩
          · intro hne
            simp only [stepA, step, hout] at hne ⊢
            unfold handleSubmitSync at hout
            split at hout
            · injection hout with h1
              rw [← h1] at hne ⊢
              exact h hne
            · split at hout
              · exact absurd hout (by simp)
              · exact absurd hout (by simp)
          · intro hne
            simp only [stepA, step, hout] at hne
            unfold handleSubmitSync at hout
            split at hout
            · exact absurd hout (by simp)
            · split at hout
              · injection hout with h1
                rw [← h1] at hne
                exact absurd rfl hne
              · exact absurd hout (by simp)
          · intro hne
            simp only [stepA, step, hout] at hne
            unfold handleSubmitSync at hout
            split at hout
            · exact absurd hout (by simp)
            · split at hout
              · exact absurd hout (by simp)
              · injection hout with h1 h2
                rw [← h1] at hne
                exact absurd rfl hne
  | respondEmail o =>
      cases ph with
      | idle => exact h
      | validating er ir =>
          cases er with
          | some eb => exact h
          | none =>
              intro hne
              simp only [stepA, step] at hne ⊢
              rw [(invite_applyValidateEmail o f).1]
              rw [(invite_applyValidateEmail o f).2] at hne
              exact h hne
  | respondInvite o =>
      cases ph with
      | idle => exact h
      | validating er ir =>
          cases ir with
          | some ib => exact h
          | none =>
              intro hne
              simp only [stepA, step] at hne ⊢
              cases o with
              | httpError t =>
                  simp only [applyValidateInvite] at hne
                  exact absurd rfl hne
              | exn m =>
                  simp only [applyValidateInvite] at hne
                  exact absurd rfl hne
              | success d =>
                  simp only [applyValidateInvite] at hne ⊢
                  by_cases hc : truthy (getProp d "valid") = true
                  · rw [if_pos hc]
                  · rw [if_neg hc] at hne
                    exact absurd rfl hne
  | deliverJoin =>
      cases ph with
      | idle => exact h
      | validating er ir =>
          cases er with
          | none => exact h
          | some eb =>
              cases ir with
              | none => exact h
              | some ib =>
                  intro hne
                  by_cases hc : (eb && ib) = true
                  · simp only [stepA, step, if_pos hc] at hne ⊢
                    exact h hne
                  · simp only [stepA, step, if_neg hc] at hne ⊢
                    exact h hne

/-- Running any event sequence preserves the metadata invariant. -/
lemma metaInv_runFrom (p : Props) (g : GState) (acts : List Action)
    (h : MetaInv g) : MetaInv (runFrom p g acts).1 := by
  induction acts generalizing g with
  | nil => exact h
  | cons a rest ih => simpa [runFrom] using ih (stepA p g a).1 (metaInv_step p g a h)

/-- C10: in every reachable state, a non-cleared invite metadata
implies the invite validated flag is true: metadata is only written
together with validated true, and every path that clears validated
also clears the metadata. -/
theorem claim10_metadata_implies_validated (p : Props) (g : GState)
    (hr : Reachable p g) (hmeta : g.form.eventName ≠ .vstr "") :
    g.form.inviteValidated = true := by
  obtain ⟨acts, rfl⟩ := hr
  exact metaInv_runFrom p initG acts (fun hne => absurd rfl hne) hmeta

/-- C10 witness: a reachable state whose metadata is the event name
Launch has the invite field validated. -/
theorem claim10_witness :
    ((runFrom p0 initG
        [ .editEmail "a@b.c", .editInvite "code", .submit
        , .respondEmail (.success dEok), .respondInvite (.success dIok) ]).1).form.inviteValidated
      = true :=
  claim10_metadata_implies_validated p0 _
    ⟨[ .editEmail "a@b.c", .editInvite "code", .submit
     , .respondEmail (.success dEok), .respondInvite (.success dIok) ], rfl⟩
    (by decide)

end DV
